import Mathlib

/-!
Verification of the Battle Orchestrator in `battle.py`.

The embedding models the orchestrator loop `run_battle_sequence`, the launch
controller `start_battle`, the grace watchdog `expire_battle_if_empty`, the
broadcast body builder `broadcast_event`, and the process-wide
`active_battles` registry.

Modelling conventions:
* JSON values are the inductive `JsonVal`; a Supabase row (a Python dict) is
  an association list `Row`.
* Every fallible collaborator call (Supabase RPC / table update) is a field
  of an environment record returning `Except Unit _`; `.error ()` models the
  call raising an exception.  `broadcast_event` in the source catches all of
  its own exceptions (and merely returns a Bool that every caller ignores),
  so broadcasting is modelled as total.
* Side effects are recorded as an ordered action trace (`BAction`):
  broadcasts, `battle_schedule` status writes, and sleeps.
* The Python `while current.data:` loop is given explicit fuel; running out
  of fuel yields the distinguished outcome `Outcome.fuelOut`, which models an
  execution that has not (yet) terminated, so the `finally` block has not run.
-/

/-- A JSON value, as passed around by the Python code. -/
inductive JsonVal : Type
  | str : String → JsonVal
  | num : Int → JsonVal
  | bool : Bool → JsonVal
  | null : JsonVal
  | list : List JsonVal → JsonVal
  | obj : List (String × JsonVal) → JsonVal

/-- A database row / Python dict: an association list of fields. -/
def Row : Type := List (String × JsonVal)

/-- First value bound to key `k` in a row, if any (Python dict lookup). -/
def lookupKey (row : Row) (k : String) : Option JsonVal :=
  (List.find? (fun p => p.1 == k) row).map Prod.snd

/-- Python `row.get(k, dflt)`: the value at `k`, or the default. -/
def row_get (row : Row) (k : String) (dflt : JsonVal) : JsonVal :=
  (lookupKey row k).getD dflt

/-- Python `row[k]`: the value at `k`, raising `KeyError` (`.error`) if absent. -/
def row_index (row : Row) (k : String) : Except Unit JsonVal :=
  match lookupKey row k with
  | some v => Except.ok v
  | none => Except.error ()

/-- One observable side effect of the orchestrator code, in program order. -/
inductive BAction : Type
  | bcast : String → JsonVal → BAction
  | write : String → BAction
  | sleep : Nat → BAction

/-- How an execution of the loop body ended. -/
inductive Outcome : Type
  | normal : Outcome
  | errored : Outcome
  | fuelOut : Outcome
deriving DecidableEq

/-- The recorded behaviour of one execution: its side effects in order, and
how it ended. -/
structure BTrace : Type where
  actions : List BAction
  outcome : Outcome

/-- The broadcast events (name, payload) occurring in an action trace. -/
def events (acts : List BAction) : List (String × JsonVal) :=
  acts.filterMap fun a =>
    match a with
    | BAction.bcast e p => some (e, p)
    | _ => none

/-- The broadcast event names occurring in an action trace, in order. -/
def eventNames (acts : List BAction) : List String :=
  acts.filterMap fun a =>
    match a with
    | BAction.bcast e _ => some e
    | _ => none

/-- The `battle_schedule` status values written by an action trace, in order. -/
def schedWrites (acts : List BAction) : List String :=
  acts.filterMap fun a =>
    match a with
    | BAction.write s => some s
    | _ => none

/-- The collaborator environment of `run_battle_sequence` (battle.py:248-299):
each Supabase call the loop makes, with `.error ()` modelling an exception.
`.data or []` coercions in the source mean only list contents are observable,
so each call yields a plain list. -/
structure Env : Type where
  get_first_mcq : Except Unit (List Row)
  get_battle_stats : JsonVal → Except Unit (List JsonVal)
  get_leader_board : Except Unit (List JsonVal)
  get_next_mcq : JsonVal → Except Unit (List Row)
  update_schedule : String → Except Unit Unit

/-- The `while current.data:` loop of `run_battle_sequence`
(battle.py:260-293).  Each iteration: read `react_order` (with default 0) and
`mcq_id` (KeyError propagates) from the head row, broadcast `new_question`,
sleep 20, fetch stats, broadcast `show_stats`, sleep 10, fetch leaderboard,
broadcast `update_leaderboard`, sleep 10, fetch the next question; if none,
write `Completed` to `battle_schedule`, broadcast `battle_end`, and break. -/
def battle_loop (env : Env) : Nat → List Row → BTrace
  | 0, _ => ⟨[], Outcome.fuelOut⟩
  | _ + 1, [] => ⟨[], Outcome.normal⟩
  | fuel + 1, mcq :: _ =>
    let react_order := row_get mcq "react_order" (JsonVal.num 0)
    match row_index mcq "mcq_id" with
    | Except.error _ => ⟨[], Outcome.errored⟩
    | Except.ok mcq_id =>
      let a1 : List BAction := [BAction.bcast "new_question" (JsonVal.obj mcq), BAction.sleep 20]
      match env.get_battle_stats mcq_id with
      | Except.error _ => ⟨a1, Outcome.errored⟩
      | Except.ok bar =>
        let a2 := a1 ++ [BAction.bcast "show_stats" (JsonVal.list bar), BAction.sleep 10]
        match env.get_leader_board with
        | Except.error _ => ⟨a2, Outcome.errored⟩
        | Except.ok lead =>
          let a3 := a2 ++ [BAction.bcast "update_leaderboard" (JsonVal.list lead), BAction.sleep 10]
          match env.get_next_mcq react_order with
          | Except.error _ => ⟨a3, Outcome.errored⟩
          | Except.ok next =>
            if next.isEmpty then
              match env.update_schedule "Completed" with
              | Except.error _ => ⟨a3, Outcome.errored⟩
              | Except.ok _ =>
                ⟨a3 ++ [BAction.write "Completed",
                        BAction.bcast "battle_end"
                          (JsonVal.obj [("message", JsonVal.str "Battle completed 🏁")])],
                 Outcome.normal⟩
            else
              let t := battle_loop env fuel next
              ⟨a3 ++ t.actions, t.outcome⟩

/-- `run_battle_sequence` (battle.py:248-299): fetch the first MCQ; if the
result is empty broadcast a terminal `battle_end` and return; otherwise run
the phase loop.  Any exception is caught at the outermost `try` (outcome
`errored`); the `finally` block always removes `battle_id` from the
`active_battles` registry — except for an execution that has not terminated
(`fuelOut`), where the `finally` has not run yet.  `run_battle_trace` is the
body inside the `try`; `run_battle_sequence` adds the `finally`. -/
def run_battle_trace (env : Env) (fuel : Nat) : BTrace :=
  match env.get_first_mcq with
  | Except.error _ => ⟨[], Outcome.errored⟩
  | Except.ok data =>
    if data.isEmpty then
      ⟨[BAction.bcast "battle_end" (JsonVal.obj [("message", JsonVal.str "No MCQs found")])],
       Outcome.normal⟩
    else battle_loop env fuel data

/-- The full behaviour of one `run_battle_sequence` execution: its trace and
the `active_battles` registry after the coroutine ends. -/
def run_battle_sequence (env : Env) (fuel : Nat) (active : Finset String)
    (battle_id : String) : BTrace × Finset String :=
  let t := run_battle_trace env fuel
  match t.outcome with
  | Outcome.fuelOut => (t, active)
  | _ => (t, active.erase battle_id)

/-- `broadcast_event` (battle.py:85-134): the JSON body POSTed to the Supabase
Realtime v2 endpoint for one broadcast.  The payload handed in is placed
verbatim under the `payload` key of a single message whose topic is
`battle_<battle_id>`.  (Network errors are caught inside the function and
only logged, so body construction is the observable behaviour.) -/
def broadcast_event (battle_id : String) (event : String) (payload : JsonVal) : JsonVal :=
  JsonVal.obj
    [("messages",
      JsonVal.list
        [JsonVal.obj
          [("topic", JsonVal.str ("battle_" ++ battle_id)),
           ("event", JsonVal.str event),
           ("payload", payload)]])]

/-- Whether a JSON value is an object whose keys are exactly
`type` then `data` — the canonical payload shape asserted by the spec. -/
def hasTypeDataShape : JsonVal → Bool
  | JsonVal.obj kvs => kvs.map Prod.fst == ["type", "data"]
  | _ => false

/-- Decompose a Realtime v2 broadcast body into its
(topic, event, payload) triple, if it has exactly that shape. -/
def envelope_fields : JsonVal → Option (JsonVal × JsonVal × JsonVal)
  | JsonVal.obj [("messages",
      JsonVal.list [JsonVal.obj [("topic", t), ("event", e), ("payload", p)]])] =>
    some (t, e, p)
  | _ => none

/-- The bodies actually handed to the Realtime endpoint for a trace. -/
def posted_bodies (battle_id : String) (acts : List BAction) : List JsonVal :=
  (events acts).map fun ep => broadcast_event battle_id ep.1 ep.2

/-- The collaborator environment of `start_battle` (battle.py:176-218):
the `battle_participants` query (filtered to `status = joined`, `.data or []`
applied) and the `battle_schedule` status update, each able to raise. -/
structure StartEnv : Type where
  get_participants : Except Unit (List Row)
  update_schedule : String → Except Unit Unit

/-- The HTTP-level result of `start_battle`: a 200 JSON response
`{success, message}`, or an `HTTPException(500)`. -/
inductive StartResponse : Type
  | json : Bool → String → StartResponse
  | error500 : StartResponse
deriving DecidableEq

/-- Everything observable about one `start_battle` call: the response, the
`active_battles` registry after the call, the side-effect trace, and how many
grace-watchdog (`expire_battle_if_empty`) and orchestrator
(`run_battle_sequence`) background tasks the call scheduled. -/
structure StartOut : Type where
  response : StartResponse
  active_battles : Finset String
  actions : List BAction
  watchdogs : Nat
  orchestrators : Nat

/-- `start_battle` (battle.py:176-218).  Control flow, in source order:
query joined participants (exception → 500); if none, write `Active` to the
schedule (exception → 500), schedule one `expire_battle_if_empty` watchdog,
broadcast `waiting_period`, and return a waiting response — the
`active_battles` registry is never consulted on this path; otherwise, if
`battle_id` is already registered, return "Already running" with no side
effects; otherwise insert `battle_id` into the registry FIRST, then write
`Active` (an exception here surfaces as 500 while `battle_id` stays
registered and no orchestrator is scheduled), then schedule the
orchestrator.  A raising schedule update is not recorded as a completed
write in the trace. -/
def start_battle (env : StartEnv) (active : Finset String) (battle_id : String) : StartOut :=
  match env.get_participants with
  | Except.error _ => ⟨StartResponse.error500, active, [], 0, 0⟩
  | Except.ok participants =>
    if participants.isEmpty then
      match env.update_schedule "Active" with
      | Except.error _ => ⟨StartResponse.error500, active, [], 0, 0⟩
      | Except.ok _ =>
        ⟨StartResponse.json false "Waiting for players (30-min grace window)", active,
         [BAction.write "Active",
          BAction.bcast "waiting_period"
            (JsonVal.obj [("message", JsonVal.str "⌛ Waiting for players to join...")])],
         1, 0⟩
    else
      if battle_id ∈ active then
        ⟨StartResponse.json false "Already running", active, [], 0, 0⟩
      else
        match env.update_schedule "Active" with
        | Except.error _ => ⟨StartResponse.error500, insert battle_id active, [], 0, 0⟩
        | Except.ok _ =>
          ⟨StartResponse.json true ("Battle " ++ battle_id ++ " orchestrator launched"),
           insert battle_id active, [BAction.write "Active"], 0, 1⟩

/-- Collaborators of `expire_battle_if_empty`: the joined-participants query
run after the grace sleep (`.data or []` applied) and the `battle_schedule`
status update.  Both are fallible: `expire_battle_if_empty` has no
try/except, so `.error ()` models the call raising, with the exception
propagating out of the task. -/
structure GraceEnv : Type where
  get_participants : Except Unit (List Row)
  update_schedule : String → Except Unit Unit

/-- `expire_battle_if_empty` (battle.py:223-243): sleep 30 minutes, re-query
joined participants; if still none, write `Completed` to the schedule and
then broadcast `battle_end` with the expiry message; otherwise do nothing
more.  A raising participants query or `Completed` write aborts the function
there (no enclosing try), so in the latter case the `battle_end` broadcast
never happens; a raising update is not recorded as a completed write. -/
def expire_battle_if_empty (env : GraceEnv) (battle_id : String) : BTrace :=
  let pre : List BAction := [BAction.sleep (30 * 60)]
  match env.get_participants with
  | Except.error _ => ⟨pre, Outcome.errored⟩
  | Except.ok participants =>
    if participants.isEmpty then
      match env.update_schedule "Completed" with
      | Except.error _ => ⟨pre, Outcome.errored⟩
      | Except.ok _ =>
        ⟨pre ++ [BAction.write "Completed",
                 BAction.bcast "battle_end"
                   (JsonVal.obj [("message", JsonVal.str "No players joined. Battle expired.")])],
         Outcome.normal⟩
    else
      ⟨pre, Outcome.normal⟩

/-- The environment of a battle with exactly `N` questions, the
parametrization used by the spec: `get_first_mcq` returns a row iff `N ≥ 1`
(namely `f 1`), and `get_next_mcq` at react_order `k` returns a row
(namely `f (k+1)`) iff `k < N`; stats and leaderboard results are arbitrary
(`st`, `lb`); no call raises. -/
def envN (N : Nat) (f : Nat → Row) (st : JsonVal → List JsonVal)
    (lb : List JsonVal) : Env :=
  ⟨Except.ok (if N = 0 then [] else [f 1]),
   fun m => Except.ok (st m),
   Except.ok lb,
   fun r =>
     Except.ok
       (match r with
        | JsonVal.num i => if i < (N : Int) then [f (i.toNat + 1)] else []
        | _ => []),
   fun _ => Except.ok ()⟩

/-- The per-question action block the loop produces for question `i` of an
`envN` battle: the three phase broadcasts interleaved with the 20/10/10
sleeps. -/
def perQuestion (st : JsonVal → List JsonVal) (lb : List JsonVal)
    (f : Nat → Row) (mid : Nat → JsonVal) (i : Nat) : List BAction :=
  [BAction.bcast "new_question" (JsonVal.obj (f i)), BAction.sleep 20,
   BAction.bcast "show_stats" (JsonVal.list (st (mid i))), BAction.sleep 10,
   BAction.bcast "update_leaderboard" (JsonVal.list lb), BAction.sleep 10]

/-- The full action trace of a normal `envN` run: the per-question blocks for
questions `1..N`, then the terminal `Completed` write and `battle_end`
broadcast — or, when `N = 0`, just the no-questions `battle_end`. -/
def fullTrace (st : JsonVal → List JsonVal) (lb : List JsonVal)
    (f : Nat → Row) (mid : Nat → JsonVal) (N : Nat) : List BAction :=
  if N = 0 then
    [BAction.bcast "battle_end" (JsonVal.obj [("message", JsonVal.str "No MCQs found")])]
  else
    ((List.range N).map (fun j => perQuestion st lb f mid (j + 1))).flatten ++
      [BAction.write "Completed",
       BAction.bcast "battle_end" (JsonVal.obj [("message", JsonVal.str "Battle completed 🏁")])]

/-- A concrete question family for witnesses: question `i` has
`mcq_id = "m"` and `react_order = i`. -/
def qRow (i : Nat) : Row :=
  [("mcq_id", JsonVal.str "m"), ("react_order", JsonVal.num i)]

/-- The state visible to the concurrency analysis: the `active_battles`
registry and the multiset of battle ids whose orchestrator loop task is
currently live (scheduled and not yet past its `finally`). -/
structure SysState : Type where
  active_battles : Finset String
  loops : Multiset String

/-- Atomic transitions of the battle service under asyncio cooperative
scheduling.  `start_battle` is one atomic step because the handler contains
no `await` (its Supabase and HTTP calls are synchronous), so no other
coroutine can interleave with it; the grace watchdog never touches this
state; an orchestrator loop only touches it in its `finally`, with no await
between the `discard` and the end of the task.
  * `start_waiting`: the zero-participant path — registry untouched, no loop.
  * `start_already`: duplicate start — no mutation.
  * `start_launch`: the registered-and-launched path.
  * `start_sched_fail`: the schedule write raises after the registry insert —
    `battle_id` stays registered, no loop scheduled (the C5 anomaly).
  * `loop_step`: any internal await/RPC/sleep of a running loop — no
    registry or loop-set change.
  * `loop_finish`: a loop runs its `finally`: discard from the registry and
    terminate. -/
inductive SysStep : SysState → SysState → Prop
  | start_waiting (s : SysState) (b : String) : SysStep s s
  | start_already (s : SysState) (b : String) (h : b ∈ s.active_battles) : SysStep s s
  | start_launch (s : SysState) (b : String) (h : b ∉ s.active_battles) :
      SysStep s ⟨insert b s.active_battles, b ::ₘ s.loops⟩
  | start_sched_fail (s : SysState) (b : String) (h : b ∉ s.active_battles) :
      SysStep s ⟨insert b s.active_battles, s.loops⟩
  | loop_step (s : SysState) : SysStep s s
  | loop_finish (s : SysState) (b : String) (h : b ∈ s.loops) :
      SysStep s ⟨s.active_battles.erase b, s.loops.erase b⟩

/-- States reachable from process start (empty registry, no loops). -/
inductive SysReach : SysState → Prop
  | init : SysReach ⟨∅, 0⟩
  | step {s t : SysState} : SysReach s → SysStep s t → SysReach t

/-- The inductive invariant: every live loop is registered, and no battle has
two live loops. -/
def SysInv (s : SysState) : Prop :=
  (∀ b, b ∈ s.loops → b ∈ s.active_battles) ∧ ∀ b, s.loops.count b ≤ 1

/-! ## Helper lemmas -/

lemma run_battle_sequence_fst (env : Env) (fuel : Nat) (active : Finset String)
    (battle_id : String) :
    (run_battle_sequence env fuel active battle_id).1 = run_battle_trace env fuel := by
  unfold run_battle_sequence
  cases h : (run_battle_trace env fuel).outcome <;> simp [h]

lemma filterMap_flatten_eq {α β : Type} (g : α → Option β) (L : List (List α)) :
    L.flatten.filterMap g = (L.map (fun l => l.filterMap g)).flatten := by
  induction L with
  | nil => rfl
  | cons a L ih => simp [List.filterMap_append, ih]

lemma map_range_const {β : Type} (c : β) (n : Nat) :
    (List.range n).map (fun _ => c) = List.replicate n c := by
  induction n with
  | zero => rfl
  | succ n ih => rw [List.range_succ, List.map_append, ih, List.replicate_succ']; rfl

/-! ## Claim theorems -/

/-- Claim C1: every terminated execution of `run_battle_sequence battle_id`,
whether it ended normally or by an exception raised at any collaborator call,
leaves a final state with `battle_id` not in the `active_battles` registry. -/
theorem registry_cleanup_on_exit (env : Env) (fuel : Nat) (active : Finset String)
    (battle_id : String)
    (h : (run_battle_sequence env fuel active battle_id).1.outcome ≠ Outcome.fuelOut) :
    battle_id ∉ (run_battle_sequence env fuel active battle_id).2 := by
  rw [run_battle_sequence_fst] at h
  unfold run_battle_sequence
  cases ho : (run_battle_trace env fuel).outcome with
  | fuelOut => exact absurd ho h
  | normal => simp [ho, Finset.not_mem_erase]
  | errored => simp [ho, Finset.not_mem_erase]

/-- Witness for C1 at a concrete input: a zero-question battle run from a
registry containing it terminates normally and is no longer registered. -/
theorem registry_cleanup_on_exit_witness :
    (run_battle_sequence (envN 0 qRow (fun _ => []) []) 1 {"B1"} "B1").1.outcome ≠
        Outcome.fuelOut ∧
      "B1" ∉ (run_battle_sequence (envN 0 qRow (fun _ => []) []) 1 {"B1"} "B1").2 :=
  ⟨by decide, registry_cleanup_on_exit (envN 0 qRow (fun _ => []) []) 1 {"B1"} "B1" (by decide)⟩

lemma flatten_range_shift {β : Type} (P : Nat → List β) (i k : Nat) :
    P i ++ ((List.range (k + 1)).map (fun j => P (i + 1 + j))).flatten =
      ((List.range (k + 1 + 1)).map (fun j => P (i + j))).flatten := by
  rw [List.range_succ_eq_map (k + 1)]
  simp only [List.map_cons, List.map_map, List.flatten_cons, Nat.add_zero]
  congr 1
  congr 1
  apply List.map_congr_left
  intro j _
  simp only [Function.comp_apply]
  congr 1
  omega

lemma battle_loop_envN_closed (N : Nat) (f : Nat → Row) (st : JsonVal → List JsonVal)
    (lb : List JsonVal) (mid : Nat → JsonVal)
    (hr : ∀ i, 1 ≤ i → i ≤ N → row_get (f i) "react_order" (JsonVal.num 0) = JsonVal.num i)
    (hm : ∀ i, 1 ≤ i → i ≤ N → row_index (f i) "mcq_id" = Except.ok (mid i)) :
    ∀ k i fuel, 1 ≤ i → i + k = N → k < fuel →
    battle_loop (envN N f st lb) fuel [f i] =
      ⟨((List.range (k + 1)).map (fun j => perQuestion st lb f mid (i + j))).flatten ++
        [BAction.write "Completed",
         BAction.bcast "battle_end"
           (JsonVal.obj [("message", JsonVal.str "Battle completed 🏁")])],
       Outcome.normal⟩ := by
  intro k
  induction k with
  | zero =>
    intro i fuel h1 h2 h3
    obtain ⟨fuel', rfl⟩ : ∃ fuel', fuel = fuel' + 1 := ⟨fuel - 1, by omega⟩
    have hi : i = N := by omega
    have hlt : ¬ ((i : Int) < (N : Int)) := by rw [hi]; exact lt_irrefl _
    simp [battle_loop, hr i h1 (by omega), hm i h1 (by omega), envN, hlt, perQuestion,
      List.range_succ]
  | succ k ih =>
    intro i fuel h1 h2 h3
    obtain ⟨fuel', rfl⟩ : ∃ fuel', fuel = fuel' + 1 := ⟨fuel - 1, by omega⟩
    have hiN : (i : Int) < (N : Int) := by exact_mod_cast (by omega : i < N)
    have hrec := ih (i + 1) fuel' (by omega) (by omega) (by omega)
    have hstep :
        battle_loop (envN N f st lb) (fuel' + 1) [f i] =
          ⟨perQuestion st lb f mid i ++
            (battle_loop (envN N f st lb) fuel' [f (i + 1)]).actions,
           (battle_loop (envN N f st lb) fuel' [f (i + 1)]).outcome⟩ := by
      simp [battle_loop, hr i h1 (by omega), hm i h1 (by omega), envN, hiN, perQuestion]
    rw [hstep, hrec]
    refine congrArg (fun a => BTrace.mk a Outcome.normal) ?_
    rw [← List.append_assoc]
    refine congrArg (fun a => a ++ _) ?_
    exact flatten_range_shift (fun j => perQuestion st lb f mid j) i k

lemma run_battle_sequence_envN (N : Nat) (f : Nat → Row) (st : JsonVal → List JsonVal)
    (lb : List JsonVal) (mid : Nat → JsonVal)
    (hr : ∀ i, 1 ≤ i → i ≤ N → row_get (f i) "react_order" (JsonVal.num 0) = JsonVal.num i)
    (hm : ∀ i, 1 ≤ i → i ≤ N → row_index (f i) "mcq_id" = Except.ok (mid i))
    (fuel : Nat) (hfuel : N ≤ fuel) (active : Finset String) (battle_id : String) :
    run_battle_sequence (envN N f st lb) fuel active battle_id =
      (⟨fullTrace st lb f mid N, Outcome.normal⟩, active.erase battle_id) := by
  cases N with
  | zero => simp [run_battle_sequence, run_battle_trace, envN, fullTrace]
  | succ n =>
    have h := battle_loop_envN_closed (n + 1) f st lb mid hr hm n 1 fuel (by omega) (by omega)
      (by omega)
    have hmap : (List.range (n + 1)).map (fun j => perQuestion st lb f mid (1 + j)) =
        (List.range (n + 1)).map (fun j => perQuestion st lb f mid (j + 1)) := by
      apply List.map_congr_left
      intro j _
      congr 1
      omega
    rw [hmap] at h
    have hfirst : (envN (n + 1) f st lb).get_first_mcq = Except.ok [f 1] := by simp [envN]
    simp [run_battle_sequence, run_battle_trace, hfirst, h, fullTrace]

lemma eventNames_append (l1 l2 : List BAction) :
    eventNames (l1 ++ l2) = eventNames l1 ++ eventNames l2 := by
  unfold eventNames
  rw [List.filterMap_append]

lemma eventNames_flatten (L : List (List BAction)) :
    eventNames L.flatten = (L.map eventNames).flatten := by
  unfold eventNames
  rw [filterMap_flatten_eq]

lemma eventNames_perQuestion (st : JsonVal → List JsonVal) (lb : List JsonVal)
    (f : Nat → Row) (mid : Nat → JsonVal) (i : Nat) :
    eventNames (perQuestion st lb f mid i) =
      ["new_question", "show_stats", "update_leaderboard"] := rfl

lemma eventNames_fullTrace (st : JsonVal → List JsonVal) (lb : List JsonVal)
    (f : Nat → Row) (mid : Nat → JsonVal) (N : Nat) :
    eventNames (fullTrace st lb f mid N) =
      (List.replicate N ["new_question", "show_stats", "update_leaderboard"]).flatten ++
        ["battle_end"] := by
  cases N with
  | zero => rfl
  | succ n =>
    have hne : n + 1 ≠ 0 := Nat.succ_ne_zero n
    rw [fullTrace, if_neg hne, eventNames_append, eventNames_flatten, List.map_map]
    have hconst : (List.range (n + 1)).map (eventNames ∘ fun j => perQuestion st lb f mid (j + 1)) =
        List.replicate (n + 1) ["new_question", "show_stats", "update_leaderboard"] := by
      rw [show (eventNames ∘ fun j => perQuestion st lb f mid (j + 1)) =
          fun _ => ["new_question", "show_stats", "update_leaderboard"] from
        funext fun j => eventNames_perQuestion st lb f mid (j + 1)]
      rw [map_range_const]
    rw [hconst]
    rfl

/-- Claim C2: for a battle with `N` questions (`get_first_mcq` returns a row
iff `N ≥ 1`, the `k`-th `get_next_mcq` call returns a row iff `k < N`), the
broadcast event names emitted by `run_battle_sequence` are exactly
`new_question, show_stats, update_leaderboard` repeated `N` times followed by
one `battle_end`; in particular `N = 0` yields exactly one `battle_end` and
nothing else. -/
theorem broadcast_sequence_for_n_questions (N : Nat) (f : Nat → Row)
    (st : JsonVal → List JsonVal) (lb : List JsonVal) (mid : Nat → JsonVal)
    (hr : ∀ i, 1 ≤ i → i ≤ N → row_get (f i) "react_order" (JsonVal.num 0) = JsonVal.num i)
    (hm : ∀ i, 1 ≤ i → i ≤ N → row_index (f i) "mcq_id" = Except.ok (mid i))
    (fuel : Nat) (hfuel : N ≤ fuel) (active : Finset String) (battle_id : String) :
    eventNames ((run_battle_sequence (envN N f st lb) fuel active battle_id).1.actions) =
      (List.replicate N ["new_question", "show_stats", "update_leaderboard"]).flatten ++
        ["battle_end"] := by
  rw [run_battle_sequence_envN N f st lb mid hr hm fuel hfuel active battle_id]
  exact eventNames_fullTrace st lb f mid N

/-- Witness for C2 at `N = 2`: the seven broadcasts of a two-question battle,
in order. -/
theorem broadcast_sequence_for_n_questions_witness :
    eventNames ((run_battle_sequence (envN 2 qRow (fun _ => []) []) 2 ∅ "B2w").1.actions) =
      ["new_question", "show_stats", "update_leaderboard",
       "new_question", "show_stats", "update_leaderboard", "battle_end"] := by
  have h := broadcast_sequence_for_n_questions 2 qRow (fun _ => []) []
    (fun _ => JsonVal.str "m") (fun i _ _ => rfl) (fun i _ _ => rfl) 2 (le_refl 2) ∅ "B2w"
  simpa using h

lemma schedWrites_append (l1 l2 : List BAction) :
    schedWrites (l1 ++ l2) = schedWrites l1 ++ schedWrites l2 := by
  unfold schedWrites
  rw [List.filterMap_append]

lemma schedWrites_flatten (L : List (List BAction)) :
    schedWrites L.flatten = (L.map schedWrites).flatten := by
  unfold schedWrites
  rw [filterMap_flatten_eq]

lemma schedWrites_perQuestion (st : JsonVal → List JsonVal) (lb : List JsonVal)
    (f : Nat → Row) (mid : Nat → JsonVal) (i : Nat) :
    schedWrites (perQuestion st lb f mid i) = [] := rfl

lemma flatten_replicate_nil {α : Type} (n : Nat) :
    (List.replicate n ([] : List α)).flatten = [] := by
  induction n with
  | zero => rfl
  | succ n ih => simp [List.replicate_succ, ih]

lemma schedWrites_fullTrace (st : JsonVal → List JsonVal) (lb : List JsonVal)
    (f : Nat → Row) (mid : Nat → JsonVal) (N : Nat) :
    schedWrites (fullTrace st lb f mid N) = if N = 0 then [] else ["Completed"] := by
  cases N with
  | zero => rfl
  | succ n =>
    have hne : n + 1 ≠ 0 := Nat.succ_ne_zero n
    rw [fullTrace, if_neg hne, if_neg hne, schedWrites_append, schedWrites_flatten,
      List.map_map]
    rw [show (schedWrites ∘ fun j => perQuestion st lb f mid (j + 1)) =
        fun _ => ([] : List String) from
      funext fun j => schedWrites_perQuestion st lb f mid (j + 1)]
    rw [map_range_const, flatten_replicate_nil]
    rfl

lemma flatten_replicate_length {α : Type} (n : Nat) (l : List α) :
    (List.replicate n l).flatten.length = n * l.length := by
  induction n with
  | zero => simp
  | succ n ih => simp [List.replicate_succ, ih, Nat.succ_mul, Nat.add_comm]

/-- Counterexample to Claim C6 as stated: for a battle where `get_first_mcq`
returns no questions at all, `run_battle_sequence` performs NO schedule-store
write — not the "once at the very start" the claim asserts. -/
theorem schedule_write_zero_questions_cex :
    schedWrites ((run_battle_sequence (envN 0 qRow (fun _ => []) []) 1 ∅ "B6").1.actions) =
        [] ∧
      (schedWrites
        ((run_battle_sequence (envN 0 qRow (fun _ => []) []) 1 ∅ "B6").1.actions)).length ≠
        1 :=
  ⟨rfl, by decide⟩

/-- Claim C6 amended: in a normal `N`-question execution every phase
transition produces exactly one broadcast (`3 * N + 1` broadcasts in total),
and the schedule store is written exactly once — `Completed`, immediately
before the terminal `battle_end` — when the question list is exhausted, and
not written at all when `get_first_mcq` returns no questions. -/
theorem schedule_write_once_amended (N : Nat) (f : Nat → Row)
    (st : JsonVal → List JsonVal) (lb : List JsonVal) (mid : Nat → JsonVal)
    (hr : ∀ i, 1 ≤ i → i ≤ N → row_get (f i) "react_order" (JsonVal.num 0) = JsonVal.num i)
    (hm : ∀ i, 1 ≤ i → i ≤ N → row_index (f i) "mcq_id" = Except.ok (mid i))
    (fuel : Nat) (hfuel : N ≤ fuel) (active : Finset String) (battle_id : String) :
    schedWrites ((run_battle_sequence (envN N f st lb) fuel active battle_id).1.actions) =
        (if N = 0 then [] else ["Completed"]) ∧
      (eventNames
        ((run_battle_sequence (envN N f st lb) fuel active battle_id).1.actions)).length =
        3 * N + 1 ∧
      (1 ≤ N → ∃ pre,
        (run_battle_sequence (envN N f st lb) fuel active battle_id).1.actions =
          pre ++ [BAction.write "Completed",
                  BAction.bcast "battle_end"
                    (JsonVal.obj [("message", JsonVal.str "Battle completed 🏁")])]) := by
  rw [run_battle_sequence_envN N f st lb mid hr hm fuel hfuel active battle_id]
  refine ⟨schedWrites_fullTrace st lb f mid N, ?_, ?_⟩
  · rw [eventNames_fullTrace, List.length_append, flatten_replicate_length]
    simp [Nat.mul_comm]
  · intro hN
    refine ⟨((List.range N).map (fun j => perQuestion st lb f mid (j + 1))).flatten, ?_⟩
    rw [fullTrace, if_neg (by omega : N ≠ 0)]

/-- Witness for the amended C6 at `N = 1`: one `Completed` write, four
broadcasts, and the write sits right before the final `battle_end`. -/
theorem schedule_write_once_amended_witness :
    schedWrites ((run_battle_sequence (envN 1 qRow (fun _ => []) []) 1 ∅ "B6w").1.actions) =
        (if 1 = 0 then [] else ["Completed"]) ∧
      (eventNames
        ((run_battle_sequence (envN 1 qRow (fun _ => []) []) 1 ∅ "B6w").1.actions)).length =
        3 * 1 + 1 ∧
      (1 ≤ 1 → ∃ pre,
        (run_battle_sequence (envN 1 qRow (fun _ => []) []) 1 ∅ "B6w").1.actions =
          pre ++ [BAction.write "Completed",
                  BAction.bcast "battle_end"
                    (JsonVal.obj [("message", JsonVal.str "Battle completed 🏁")])]) :=
  schedule_write_once_amended 1 qRow (fun _ => []) [] (fun _ => JsonVal.str "m")
    (fun i _ _ => rfl) (fun i _ _ => rfl) 1 (le_refl 1) ∅ "B6w"

lemma flatten_replicate_succ {α : Type} (n : Nat) (l : List α) :
    (List.replicate (n + 1) l).flatten = l ++ (List.replicate n l).flatten := by
  rw [List.replicate_succ, List.flatten_cons]

lemma battle_loop_errored_shape (env : Env) :
    ∀ (fuel : Nat) (data : List Row),
      (battle_loop env fuel data).outcome = Outcome.errored →
      schedWrites ((battle_loop env fuel data).actions) = [] ∧
      ∃ n partQ,
        eventNames ((battle_loop env fuel data).actions) =
          (List.replicate n ["new_question", "show_stats", "update_leaderboard"]).flatten ++
            partQ ∧
        (partQ = [] ∨ partQ = ["new_question"] ∨
         partQ = ["new_question", "show_stats"] ∨
         partQ = ["new_question", "show_stats", "update_leaderboard"]) := by
  intro fuel
  induction fuel with
  | zero =>
    intro data h
    simp [battle_loop] at h
  | succ fuel ih =>
    intro data h
    cases data with
    | nil => simp [battle_loop] at h
    | cons mcq rest =>
      rcases hmi : row_index mcq "mcq_id" with u | m
      · refine ⟨?_, 0, [], ?_, Or.inl rfl⟩ <;>
          simp [battle_loop, hmi, schedWrites, eventNames]
      · rcases hst : env.get_battle_stats m with u | bar
        · refine ⟨?_, 0, ["new_question"], ?_, Or.inr (Or.inl rfl)⟩ <;>
            simp [battle_loop, hmi, hst, schedWrites, eventNames]
        · rcases hld : env.get_leader_board with u | lead
          · refine ⟨?_, 0, ["new_question", "show_stats"], ?_,
              Or.inr (Or.inr (Or.inl rfl))⟩ <;>
              simp [battle_loop, hmi, hst, hld, schedWrites, eventNames]
          · rcases hnx : env.get_next_mcq (row_get mcq "react_order" (JsonVal.num 0))
                with u | next
            · refine ⟨?_, 0, ["new_question", "show_stats", "update_leaderboard"], ?_,
                Or.inr (Or.inr (Or.inr rfl))⟩ <;>
                simp [battle_loop, hmi, hst, hld, hnx, schedWrites, eventNames]
            · rcases hmt : next.isEmpty with _ | _
              · have hloop :
                    battle_loop env (fuel + 1) (mcq :: rest) =
                      ⟨[BAction.bcast "new_question" (JsonVal.obj mcq), BAction.sleep 20,
                        BAction.bcast "show_stats" (JsonVal.list bar), BAction.sleep 10,
                        BAction.bcast "update_leaderboard" (JsonVal.list lead),
                        BAction.sleep 10] ++ (battle_loop env fuel next).actions,
                       (battle_loop env fuel next).outcome⟩ := by
                  simp [battle_loop, hmi, hst, hld, hnx, hmt]
                rw [hloop] at h
                obtain ⟨hw, n, partQ, hnames, hp⟩ := ih next h
                refine ⟨?_, n + 1, partQ, ?_, hp⟩
                · rw [hloop]
                  dsimp only
                  rw [schedWrites_append, hw]
                  simp [schedWrites]
                · rw [hloop]
                  dsimp only
                  rw [eventNames_append, hnames, flatten_replicate_succ, List.append_assoc]
                  simp [eventNames]
              · rcases hup : env.update_schedule "Completed" with u | v
                · refine ⟨?_, 0, ["new_question", "show_stats", "update_leaderboard"], ?_,
                    Or.inr (Or.inr (Or.inr rfl))⟩ <;>
                    simp [battle_loop, hmi, hst, hld, hnx, hmt, hup, schedWrites, eventNames]
                · simp [battle_loop, hmi, hst, hld, hnx, hmt, hup] at h

/-- Claim C3: every execution of `run_battle_sequence` in which any
collaborator call raises (outcome `errored` — whether `get_first_mcq`,
`mcq_id` access, `get_battle_stats`, `get_leader_board`, `get_next_mcq` or
the `Completed` write, on any question) terminates with no `Completed`
schedule write, no terminal `battle_end`, a broadcast trace that stops
partway through a question's phase cycle (so the remaining phase broadcasts
for that question are never emitted), and `battle_id` removed from the
registry. -/
theorem collaborator_error_aborts_loop (env : Env) (fuel : Nat) (active : Finset String)
    (battle_id : String)
    (h : (run_battle_sequence env fuel active battle_id).1.outcome = Outcome.errored) :
    schedWrites ((run_battle_sequence env fuel active battle_id).1.actions) = [] ∧
      "battle_end" ∉ eventNames ((run_battle_sequence env fuel active battle_id).1.actions) ∧
      (∃ n partQ,
        eventNames ((run_battle_sequence env fuel active battle_id).1.actions) =
          (List.replicate n ["new_question", "show_stats", "update_leaderboard"]).flatten ++
            partQ ∧
        (partQ = [] ∨ partQ = ["new_question"] ∨
         partQ = ["new_question", "show_stats"] ∨
         partQ = ["new_question", "show_stats", "update_leaderboard"])) ∧
      battle_id ∉ (run_battle_sequence env fuel active battle_id).2 := by
  have hreg : battle_id ∉ (run_battle_sequence env fuel active battle_id).2 := by
    rw [run_battle_sequence_fst] at h
    simp [run_battle_sequence, h, Finset.not_mem_erase]
  rw [run_battle_sequence_fst] at h ⊢
  rcases hfm : env.get_first_mcq with u | data
  · have htr : run_battle_trace env fuel = ⟨[], Outcome.errored⟩ := by
      simp [run_battle_trace, hfm]
    rw [htr]
    exact ⟨rfl, by simp [eventNames], ⟨0, [], rfl, Or.inl rfl⟩, hreg⟩
  · rcases hde : data.isEmpty with _ | _
    · have htr : run_battle_trace env fuel = battle_loop env fuel data := by
        simp [run_battle_trace, hfm, hde]
      rw [htr] at h ⊢
      obtain ⟨hw, n, partQ, hnames, hp⟩ := battle_loop_errored_shape env fuel data h
      refine ⟨hw, ?_, ⟨n, partQ, hnames, hp⟩, hreg⟩
      rw [hnames]
      intro hbe
      rcases List.mem_append.mp hbe with h1 | h2
      · rcases List.mem_flatten.mp h1 with ⟨l, hl, hel⟩
        have hlp := List.eq_of_mem_replicate hl
        subst hlp
        simp at hel
      · rcases hp with rfl | rfl | rfl | rfl <;> simp at h2
    · have htr : run_battle_trace env fuel =
          ⟨[BAction.bcast "battle_end"
              (JsonVal.obj [("message", JsonVal.str "No MCQs found")])],
           Outcome.normal⟩ := by
        simp [run_battle_trace, hfm, hde]
      rw [htr] at h
      simp at h

/-- Witness for C3: a concrete one-question battle whose stats RPC raises
right after Q1's `new_question` broadcast. -/
theorem collaborator_error_aborts_loop_witness :
    schedWrites ((run_battle_sequence
        ⟨Except.ok [qRow 1], fun _ => Except.error (), Except.ok [],
         fun _ => Except.ok [], fun _ => Except.ok ()⟩ 1 ∅ "B3").1.actions) = [] ∧
      "battle_end" ∉ eventNames ((run_battle_sequence
        ⟨Except.ok [qRow 1], fun _ => Except.error (), Except.ok [],
         fun _ => Except.ok [], fun _ => Except.ok ()⟩ 1 ∅ "B3").1.actions) ∧
      (∃ n partQ,
        eventNames ((run_battle_sequence
          ⟨Except.ok [qRow 1], fun _ => Except.error (), Except.ok [],
           fun _ => Except.ok [], fun _ => Except.ok ()⟩ 1 ∅ "B3").1.actions) =
          (List.replicate n ["new_question", "show_stats", "update_leaderboard"]).flatten ++
            partQ ∧
        (partQ = [] ∨ partQ = ["new_question"] ∨
         partQ = ["new_question", "show_stats"] ∨
         partQ = ["new_question", "show_stats", "update_leaderboard"])) ∧
      "B3" ∉ (run_battle_sequence
        ⟨Except.ok [qRow 1], fun _ => Except.error (), Except.ok [],
         fun _ => Except.ok [], fun _ => Except.ok ()⟩ 1 ∅ "B3").2 :=
  collaborator_error_aborts_loop
    ⟨Except.ok [qRow 1], fun _ => Except.error (), Except.ok [],
     fun _ => Except.ok [], fun _ => Except.ok ()⟩ 1 ∅ "B3" (by decide)

lemma sysInv_init : SysInv ⟨∅, 0⟩ := by
  constructor
  · intro b hb
    simp at hb
  · intro b
    simp

lemma sysInv_step {s t : SysState} (h : SysInv s) (hs : SysStep s t) : SysInv t := by
  obtain ⟨hmem, hcount⟩ := h
  cases hs with
  | start_waiting b => exact ⟨hmem, hcount⟩
  | start_already b hb => exact ⟨hmem, hcount⟩
  | loop_step => exact ⟨hmem, hcount⟩
  | start_launch b hb =>
    constructor
    · intro c hc
      rcases Multiset.mem_cons.mp hc with hcb | hcs
      · subst hcb
        exact Finset.mem_insert_self c s.active_battles
      · exact Finset.mem_insert_of_mem (hmem c hcs)
    · intro c
      by_cases hcb : c = b
      · subst hcb
        have hc0 : s.loops.count c = 0 :=
          Multiset.count_eq_zero.mpr fun hcl => hb (hmem c hcl)
        rw [Multiset.count_cons_self, hc0]
      · rw [Multiset.count_cons_of_ne hcb]
        exact hcount c
  | start_sched_fail b hb =>
    exact ⟨fun c hc => Finset.mem_insert_of_mem (hmem c hc), hcount⟩
  | loop_finish b hb =>
    constructor
    · intro c hc
      have hcl : c ∈ s.loops := Multiset.mem_of_mem_erase hc
      have hcb : c ≠ b := by
        intro he
        subst he
        have h1 := hcount c
        have h2 : (s.loops.erase c).count c = s.loops.count c - 1 :=
          s.loops.count_erase_self c
        have h3 : 0 < (s.loops.erase c).count c := Multiset.count_pos.mpr hc
        omega
      exact Finset.mem_erase.mpr ⟨hcb, hmem c hcl⟩
    · intro c
      by_cases hcb : c = b
      · subst hcb
        rw [s.loops.count_erase_self c]
        have := hcount c
        omega
      · rw [Multiset.count_erase_of_ne hcb]
        exact hcount c

lemma sysReach_inv {s : SysState} (h : SysReach s) : SysInv s := by
  induction h with
  | init => exact sysInv_init
  | step _ hs ih => exact sysInv_step ih hs

/-- Claim C4: in every state reachable by any interleaving of `start_battle`
calls and running loops (under asyncio cooperative scheduling, with the
await-free `start_battle` handler atomic), at most one orchestrator loop
instance is live for any given `battle_id`. -/
theorem mutual_exclusion_per_battle (s : SysState) (h : SysReach s) (b : String) :
    s.loops.count b ≤ 1 :=
  (sysReach_inv h).2 b

/-- Witness for C4: the state right after one successful launch is reachable
and carries exactly one loop for the battle. -/
theorem mutual_exclusion_per_battle_witness :
    Multiset.count "B4" ((⟨insert "B4" ∅, "B4" ::ₘ 0⟩ : SysState).loops) ≤ 1 :=
  mutual_exclusion_per_battle ⟨insert "B4" ∅, "B4" ::ₘ 0⟩
    (SysReach.step SysReach.init
      (SysStep.start_launch ⟨∅, 0⟩ "B4" (Finset.not_mem_empty "B4")))
    "B4"

/-- Counterexample to Claim C5 as stated: with one joined participant and a
schedule write that raises after the registry insert, `start_battle` returns
the 500 error but leaves `battle_id` inserted in the registry — a partial
registry mutation remains. -/
theorem start_error_registry_cex :
    (start_battle ⟨Except.ok [qRow 1], fun _ => Except.error ()⟩ ∅ "B5").response =
        StartResponse.error500 ∧
      "B5" ∈ (start_battle ⟨Except.ok [qRow 1], fun _ => Except.error ()⟩ ∅ "B5").active_battles := by
  constructor
  · rfl
  · decide

/-- Claim C5 amended: an exception during the participant lookup, or during
the schedule write of the zero-participant path, yields a 500 with the
registry unchanged; but an exception during the schedule write that follows
the registry insert yields a 500 with `battle_id` left in the registry (and
no orchestrator scheduled). -/
theorem start_error_registry_amended :
    (∀ (env : StartEnv) (active : Finset String) (battle_id : String),
        env.get_participants = Except.error () →
        start_battle env active battle_id = ⟨StartResponse.error500, active, [], 0, 0⟩) ∧
      (∀ (env : StartEnv) (active : Finset String) (battle_id : String) (ps : List Row),
        env.get_participants = Except.ok ps → ps.isEmpty = true →
        env.update_schedule "Active" = Except.error () →
        start_battle env active battle_id = ⟨StartResponse.error500, active, [], 0, 0⟩) ∧
      (∀ (env : StartEnv) (active : Finset String) (battle_id : String) (ps : List Row),
        env.get_participants = Except.ok ps → ps.isEmpty = false →
        battle_id ∉ active →
        env.update_schedule "Active" = Except.error () →
        start_battle env active battle_id =
          ⟨StartResponse.error500, insert battle_id active, [], 0, 0⟩) := by
  refine ⟨?_, ?_, ?_⟩
  · intro env active battle_id h
    simp [start_battle, h]
  · intro env active battle_id ps h1 h2 h3
    simp [start_battle, h1, h2, h3]
  · intro env active battle_id ps h1 h2 h3 h4
    simp [start_battle, h1, h2, h3, h4]

/-- Witness for the amended C5 at concrete inputs: all three error paths. -/
theorem start_error_registry_amended_witness :
    start_battle ⟨Except.error (), fun _ => Except.ok ()⟩ ∅ "B5a" =
        ⟨StartResponse.error500, ∅, [], 0, 0⟩ ∧
      start_battle ⟨Except.ok [], fun _ => Except.error ()⟩ ∅ "B5b" =
        ⟨StartResponse.error500, ∅, [], 0, 0⟩ ∧
      start_battle ⟨Except.ok [qRow 1], fun _ => Except.error ()⟩ ∅ "B5c" =
        ⟨StartResponse.error500, insert "B5c" ∅, [], 0, 0⟩ :=
  ⟨start_error_registry_amended.1 ⟨Except.error (), fun _ => Except.ok ()⟩ ∅ "B5a" rfl,
   start_error_registry_amended.2.1 ⟨Except.ok [], fun _ => Except.error ()⟩ ∅ "B5b" [] rfl
     rfl rfl,
   start_error_registry_amended.2.2 ⟨Except.ok [qRow 1], fun _ => Except.error ()⟩ ∅ "B5c"
     [qRow 1] rfl rfl (Finset.not_mem_empty "B5c") rfl⟩

/-- Claim C7: a `start_battle` call with joined participants present, while
`battle_id` is already registered, returns the failure response with the
"Already running" message, schedules no second loop and no watchdog, and
performs no registry or schedule-store mutation. -/
theorem start_already_running_idempotent (env : StartEnv) (active : Finset String)
    (battle_id : String) (ps : List Row)
    (h1 : env.get_participants = Except.ok ps) (h2 : ps.isEmpty = false)
    (h3 : battle_id ∈ active) :
    start_battle env active battle_id =
      ⟨StartResponse.json false "Already running", active, [], 0, 0⟩ := by
  simp [start_battle, h1, h2, h3]

/-- Witness for C7 at a concrete input. -/
theorem start_already_running_idempotent_witness :
    start_battle ⟨Except.ok [qRow 1], fun _ => Except.ok ()⟩ {"B7"} "B7" =
      ⟨StartResponse.json false "Already running", {"B7"}, [], 0, 0⟩ :=
  start_already_running_idempotent ⟨Except.ok [qRow 1], fun _ => Except.ok ()⟩ {"B7"} "B7"
    [qRow 1] rfl rfl (Finset.mem_singleton_self "B7")

/-- Claim C10: a `start_battle` call that finds zero joined participants never
consults the registry — for EVERY registry contents (including one already
holding `battle_id`) it writes `Active`, broadcasts `waiting_period`,
schedules one fresh grace watchdog, spawns no orchestrator, and leaves the
registry untouched; hence repeated zero-participant calls each add another
watchdog. -/
theorem start_zero_participants_watchdog (env : StartEnv) (active : Finset String)
    (battle_id : String)
    (h1 : env.get_participants = Except.ok [])
    (h2 : env.update_schedule "Active" = Except.ok ()) :
    start_battle env active battle_id =
      ⟨StartResponse.json false "Waiting for players (30-min grace window)", active,
       [BAction.write "Active",
        BAction.bcast "waiting_period"
          (JsonVal.obj [("message", JsonVal.str "⌛ Waiting for players to join...")])],
       1, 0⟩ := by
  simp [start_battle, h1, h2]

/-- Witness for C10 with `battle_id` already in the registry: the watchdog is
still scheduled and the registry is not consulted. -/
theorem start_zero_participants_watchdog_witness :
    start_battle ⟨Except.ok [], fun _ => Except.ok ()⟩ {"B10"} "B10" =
      ⟨StartResponse.json false "Waiting for players (30-min grace window)", {"B10"},
       [BAction.write "Active",
        BAction.bcast "waiting_period"
          (JsonVal.obj [("message", JsonVal.str "⌛ Waiting for players to join...")])],
       1, 0⟩ :=
  start_zero_participants_watchdog ⟨Except.ok [], fun _ => Except.ok ()⟩ {"B10"} "B10" rfl rfl

lemma eventNames_eq_map_events (acts : List BAction) :
    eventNames acts = (events acts).map Prod.fst := by
  induction acts with
  | nil => rfl
  | cons a rest ih => cases a <;> simp [events, eventNames] at ih ⊢ <;> exact ih

lemma mem_events_name {acts : List BAction} {e : String} {p : JsonVal}
    (h : (e, p) ∈ events acts) : e ∈ eventNames acts := by
  rw [eventNames_eq_map_events]
  exact List.mem_map.mpr ⟨(e, p), h, rfl⟩

lemma battle_loop_eventNames_mem (env : Env) :
    ∀ (fuel : Nat) (data : List Row) (e : String),
      e ∈ eventNames ((battle_loop env fuel data).actions) →
      e ∈ ["new_question", "show_stats", "update_leaderboard", "battle_end"] := by
  intro fuel
  induction fuel with
  | zero =>
    intro data e he
    simp [battle_loop, eventNames] at he
  | succ fuel ih =>
    intro data e he
    cases data with
    | nil => simp [battle_loop, eventNames] at he
    | cons mcq rest =>
      rcases hmi : row_index mcq "mcq_id" with u | m
      · simp [battle_loop, hmi, eventNames] at he
      · rcases hst : env.get_battle_stats m with u | bar
        · simp [battle_loop, hmi, hst, eventNames] at he
          simp [he]
        · rcases hld : env.get_leader_board with u | lead
          · simp [battle_loop, hmi, hst, hld, eventNames] at he
            rcases he with rfl | rfl <;> simp
          · rcases hnx : env.get_next_mcq (row_get mcq "react_order" (JsonVal.num 0))
                with u | next
            · simp [battle_loop, hmi, hst, hld, hnx, eventNames] at he
              rcases he with rfl | rfl | rfl <;> simp
            · rcases hmt : next.isEmpty with _ | _
              · have hloop :
                    battle_loop env (fuel + 1) (mcq :: rest) =
                      ⟨[BAction.bcast "new_question" (JsonVal.obj mcq), BAction.sleep 20,
                        BAction.bcast "show_stats" (JsonVal.list bar), BAction.sleep 10,
                        BAction.bcast "update_leaderboard" (JsonVal.list lead),
                        BAction.sleep 10] ++ (battle_loop env fuel next).actions,
                       (battle_loop env fuel next).outcome⟩ := by
                  simp [battle_loop, hmi, hst, hld, hnx, hmt]
                rw [hloop] at he
                rw [eventNames_append] at he
                rcases List.mem_append.mp he with h1 | h2
                · simp [eventNames] at h1
                  rcases h1 with rfl | rfl | rfl <;> simp
                · exact ih next e h2
              · rcases hup : env.update_schedule "Completed" with u | v
                · simp [battle_loop, hmi, hst, hld, hnx, hmt, hup, eventNames] at he
                  rcases he with rfl | rfl | rfl <;> simp
                · simp [battle_loop, hmi, hst, hld, hnx, hmt, hup, eventNames] at he
                  rcases he with rfl | rfl | rfl | rfl <;> simp

/-- Counterexample to Claim C8 as stated: in a zero-question run, the single
payload handed to the broadcast collaborator is the raw message object
with sole key `message`, which does not have the canonical
type-and-data shape the claim asserts. -/
theorem broadcast_payload_shape_cex :
    events ((run_battle_sequence (envN 0 qRow (fun _ => []) []) 1 ∅ "B8").1.actions) =
        [("battle_end", JsonVal.obj [("message", JsonVal.str "No MCQs found")])] ∧
      (events ((run_battle_sequence (envN 0 qRow (fun _ => []) []) 1 ∅ "B8").1.actions)).map
          (fun ep => hasTypeDataShape ep.2) =
        [false] :=
  ⟨rfl, rfl⟩

/-- Claim C8 amended: every payload handed to the broadcast collaborator is
the phase-specific value itself (question row, stats list, leaderboard list,
or a message object), with no type-and-data wrapper; `broadcast_event` wraps
it verbatim into the Realtime v2 body — an object with the single key
`messages` holding one message with keys `topic` (equal to
`battle_` ++ battle id), `event` (the event name) and `payload` — and the
event names used are `new_question`, `show_stats`, `update_leaderboard`,
`battle_end` from the orchestrator loop, `waiting_period` from
`start_battle`, and `battle_end` from the watchdog. -/
theorem broadcast_envelope_amended :
    (∀ (env : Env) (fuel : Nat) (active : Finset String) (battle_id e : String) (p : JsonVal),
        (e, p) ∈ events ((run_battle_sequence env fuel active battle_id).1.actions) →
        e ∈ ["new_question", "show_stats", "update_leaderboard", "battle_end"] ∧
          envelope_fields (broadcast_event battle_id e p) =
            some (JsonVal.str ("battle_" ++ battle_id), JsonVal.str e, p)) ∧
      (∀ (env : StartEnv) (active : Finset String) (battle_id e : String) (p : JsonVal),
        (e, p) ∈ events (start_battle env active battle_id).actions →
        e = "waiting_period" ∧
          envelope_fields (broadcast_event battle_id e p) =
            some (JsonVal.str ("battle_" ++ battle_id), JsonVal.str e, p)) ∧
      (∀ (env : GraceEnv) (battle_id e : String) (p : JsonVal),
        (e, p) ∈ events (expire_battle_if_empty env battle_id).actions →
        e = "battle_end" ∧
          envelope_fields (broadcast_event battle_id e p) =
            some (JsonVal.str ("battle_" ++ battle_id), JsonVal.str e, p)) := by
  refine ⟨?_, ?_, ?_⟩
  · intro env fuel active battle_id e p hmem
    refine ⟨?_, rfl⟩
    rw [run_battle_sequence_fst] at hmem
    have hname := mem_events_name hmem
    rcases hfm : env.get_first_mcq with u | data
    · simp [run_battle_trace, hfm, eventNames] at hname
    · rcases hde : data.isEmpty with _ | _
      · have : run_battle_trace env fuel = battle_loop env fuel data := by
          simp [run_battle_trace, hfm, hde]
        rw [this] at hname
        exact battle_loop_eventNames_mem env fuel data e hname
      · simp [run_battle_trace, hfm, hde, eventNames] at hname
        simp [hname]
  · intro env active battle_id e p hmem
    refine ⟨?_, rfl⟩
    rcases hgp : env.get_participants with u | ps
    · simp [start_battle, hgp, events] at hmem
    · rcases hps : ps.isEmpty with _ | _
      · by_cases hin : battle_id ∈ active
        · simp [start_battle, hgp, hps, hin, events] at hmem
        · rcases hup : env.update_schedule "Active" with u | v
          · simp [start_battle, hgp, hps, hin, hup, events] at hmem
          · simp [start_battle, hgp, hps, hin, hup, events] at hmem
      · rcases hup : env.update_schedule "Active" with u | v
        · simp [start_battle, hgp, hps, hup, events] at hmem
        · simp [start_battle, hgp, hps, hup, events] at hmem
          exact hmem.1
  · intro env battle_id e p hmem
    refine ⟨?_, rfl⟩
    rcases hgp : env.get_participants with u | ps
    · simp [expire_battle_if_empty, hgp, events] at hmem
    · rcases hps : ps.isEmpty with _ | _
      · simp [expire_battle_if_empty, hgp, hps, events] at hmem
      · rcases hup : env.update_schedule "Completed" with u | v
        · simp [expire_battle_if_empty, hgp, hps, hup, events] at hmem
        · simp [expire_battle_if_empty, hgp, hps, hup, events] at hmem
          exact hmem.1

/-- Witness for the amended C8: the `battle_end` broadcast of a zero-question
run has an allowed name and is wrapped in the Realtime envelope verbatim. -/
theorem broadcast_envelope_amended_witness :
    "battle_end" ∈ ["new_question", "show_stats", "update_leaderboard", "battle_end"] ∧
      envelope_fields (broadcast_event "B8w" "battle_end"
          (JsonVal.obj [("message", JsonVal.str "No MCQs found")])) =
        some (JsonVal.str ("battle_" ++ "B8w"), JsonVal.str "battle_end",
          JsonVal.obj [("message", JsonVal.str "No MCQs found")]) :=
  broadcast_envelope_amended.1 (envN 0 qRow (fun _ => []) []) 1 ∅ "B8w" "battle_end"
    (JsonVal.obj [("message", JsonVal.str "No MCQs found")]) (List.Mem.head _)

/-- Claim C9: every watchdog invocation first sleeps the fixed 30-minute
grace period; then, if the joined-participant count is still zero, it writes
`Completed` and then broadcasts the expired-no-players `battle_end` (the
write being a fallible collaborator call: when it raises, the uncaught
exception aborts the task and the broadcast never happens), and if any
participant joined in the interim it performs no write and no broadcast. -/
theorem grace_watchdog_behavior (env : GraceEnv) (battle_id : String) :
    (expire_battle_if_empty env battle_id).actions.take 1 = [BAction.sleep (30 * 60)] ∧
      (env.get_participants = Except.ok [] →
        env.update_schedule "Completed" = Except.ok () →
        expire_battle_if_empty env battle_id =
          ⟨[BAction.sleep (30 * 60), BAction.write "Completed",
            BAction.bcast "battle_end"
              (JsonVal.obj [("message", JsonVal.str "No players joined. Battle expired.")])],
           Outcome.normal⟩) ∧
      (∀ ps, env.get_participants = Except.ok ps → ps.isEmpty = false →
        expire_battle_if_empty env battle_id =
          ⟨[BAction.sleep (30 * 60)], Outcome.normal⟩) ∧
      (env.get_participants = Except.ok [] →
        env.update_schedule "Completed" = Except.error () →
        expire_battle_if_empty env battle_id =
          ⟨[BAction.sleep (30 * 60)], Outcome.errored⟩) := by
  refine ⟨?_, ?_, ?_, ?_⟩
  · rcases h : env.get_participants with u | ps
    · simp [expire_battle_if_empty, h]
    · rcases hps : ps.isEmpty with _ | _
      · simp [expire_battle_if_empty, h, hps]
      · rcases hup : env.update_schedule "Completed" with u | v <;>
          simp [expire_battle_if_empty, h, hps, hup]
  · intro h hup
    simp [expire_battle_if_empty, h, hup]
  · intro ps h hps
    simp [expire_battle_if_empty, h, hps]
  · intro h hup
    simp [expire_battle_if_empty, h, hup]

/-- Witness for C9: all three watchdog outcomes at concrete inputs. -/
theorem grace_watchdog_behavior_witness :
    expire_battle_if_empty ⟨Except.ok [], fun _ => Except.ok ()⟩ "B9" =
        ⟨[BAction.sleep (30 * 60), BAction.write "Completed",
          BAction.bcast "battle_end"
            (JsonVal.obj [("message", JsonVal.str "No players joined. Battle expired.")])],
         Outcome.normal⟩ ∧
      expire_battle_if_empty ⟨Except.ok [qRow 1], fun _ => Except.ok ()⟩ "B9" =
        ⟨[BAction.sleep (30 * 60)], Outcome.normal⟩ ∧
      expire_battle_if_empty ⟨Except.ok [], fun _ => Except.error ()⟩ "B9" =
        ⟨[BAction.sleep (30 * 60)], Outcome.errored⟩ :=
  ⟨(grace_watchdog_behavior ⟨Except.ok [], fun _ => Except.ok ()⟩ "B9").2.1 rfl rfl,
   (grace_watchdog_behavior ⟨Except.ok [qRow 1], fun _ => Except.ok ()⟩ "B9").2.2.1
     [qRow 1] rfl rfl,
   (grace_watchdog_behavior ⟨Except.ok [], fun _ => Except.error ()⟩ "B9").2.2.2 rfl rfl⟩
